import Mathlib

/-!
Verification of the RPC identity/translation/dispatch subsystem of CyberpunkMP,
together with the packet envelope and the server-list announcement timer.

The data model is embedded shallowly from the C++ sources:
- `RpcId`, its equality operator and its `std::hash` specialization come from
  `src/code/client/App/Network/Rpc/RpcService.h`;
- `PacketEvent` comes from `src/code/protocol/ProtocolPCH.h`;
- the server-list tick/observer state machine comes from
  `src/code/server/native/Systems/ServerListSystem.cpp`.
Operations whose implementations are not part of the available sources (only
their declarations in `RpcService.h`) are modelled from the specification and
marked as such in their doc comments.

Machine integers are modelled as `Nat` with explicit reduction modulo `2 ^ 64`
where 64-bit overflow matters.
-/

namespace CyberpunkMP

/-- The modulus of the 64-bit unsigned integers (`uint64_t`, `std::size_t`). -/
def U64 : Nat := 2 ^ 64

/-- RpcId, from RpcService.h lines 8-14: the composite RPC identity
`{Klass : uint64_t, Function : uint64_t}`. -/
structure RpcId where
  Klass : Nat
  Function : Nat
deriving DecidableEq, Repr

/-- Validity of an `RpcId` as a pair of 64-bit machine words. -/
def RpcId.Valid (a : RpcId) : Prop := a.Klass < U64 ∧ a.Function < U64

/-- RpcId::operator==, from RpcService.h line 13:
`Klass == acRhs.Klass && Function == acRhs.Function`. -/
def rpcIdEq (a b : RpcId) : Bool :=
  a.Klass == b.Klass && a.Function == b.Function

/-- std::hash&lt;RpcId&gt;, from RpcService.h lines 23-26:
`s.Klass ^ (s.Function << 1)` computed on 64-bit words, so the shift wraps
modulo `2 ^ 64`. -/
def rpcIdHash (s : RpcId) : Nat :=
  s.Klass ^^^ ((s.Function <<< 1) % U64)

/-- PacketEvent, from ProtocolPCH.h lines 14-20: the envelope derives from the
payload type `T` (modelled as a `payload` field) and adds the single field
`ConnectionId` with default value `0`. -/
structure PacketEvent (T : Type) where
  payload : T
  ConnectionId : Nat := 0

/-- CachedRpcHandler, from RpcService.h lines 16-21: an (Identity, Handler)
entry of the inbound handler registry `m_clientRpcs`. The handler is an opaque
type-erased pointer in the source; it is modelled by a type parameter `H`. -/
structure CachedRpcHandler (H : Type) where
  Id : RpcId
  Handler : H
deriving DecidableEq, Repr

/-- The outbound translation table `m_serverRpcs : Map<RpcId, uint32_t>`
(RpcService.h line 48), modelled as an association list whose keys are kept
pairwise distinct by construction of the Definitions handshake. -/
abbrev TranslationTable : Type := List (RpcId × Nat)

namespace RpcService

/-- Modelled from the spec: the body of `RpcService::GetRpcId` is not under
src/ (RpcService.h line 36 only declares it). Per spec section 4.1, `lookup` is a
pure read of the translation table returning `optional<uint32_t>`: the WireId
currently mapped to the identity, or absent. -/
def GetRpcId (t : TranslationTable) (aKlass aFunction : Nat) : Option Nat :=
  (List.find? (fun e => rpcIdEq e.1 ⟨aKlass, aFunction⟩) t).map Prod.snd

/-- Lookup of a translation table at an `RpcId` key; `GetRpcId` restated with
the composite key taken whole. -/
def lookupTable (t : TranslationTable) (id : RpcId) : Option Nat :=
  (List.find? (fun e => rpcIdEq e.1 id) t).map Prod.snd

/-- Modelled from the spec: the body of `RpcService::HandleRpcDefinitions` is
not under src/ (RpcService.h line 43 only declares it). Per spec sections 3 and 4.1,
processing a Definitions message atomically discards the previous contents of
`m_serverRpcs` and installs the message's (Identity, WireId) entries. -/
def HandleRpcDefinitions (_prev : TranslationTable)
    (entries : List (RpcId × Nat)) : TranslationTable :=
  entries

/-- Modelled from the spec: the initial state of `m_serverRpcs` before the
first Definitions message (spec section 4.3 state machine, `AwaitingDefinitions`):
no identity has a server-assigned WireId yet. -/
def initialTable : TranslationTable := ([] : List (RpcId × Nat))

/-- resolve on the inbound handler registry `m_clientRpcs` (RpcService.h line
49): a linear scan over the compact sequence of cached handlers, per spec
section 4.2. -/
def resolve {H : Type} (l : List (CachedRpcHandler H)) (id : RpcId) : Option H :=
  (List.find? (fun c => rpcIdEq c.Id id) l).map CachedRpcHandler.Handler

/-- Modelled from the spec: the bring-up population of `m_clientRpcs` is not
under src/. Per spec section 4.2, `register` appends the entry unless an entry with
an equal identity is already present, in which case initialization fails fast
(modelled as `none`). -/
def registerHandler {H : Type} (l : List (CachedRpcHandler H)) (id : RpcId)
    (h : H) : Option (List (CachedRpcHandler H)) :=
  if l.any (fun c => rpcIdEq c.Id id) then none else some (l ++ [⟨id, h⟩])

/-- Registration of a whole bring-up list, entry by entry, failing fast as
soon as one `registerHandler` step fails. -/
def registerAllFrom {H : Type} (acc : List (CachedRpcHandler H)) :
    List (RpcId × H) → Option (List (CachedRpcHandler H))
  | [] => some acc
  | e :: rest =>
    match registerHandler acc e.1 e.2 with
    | none => none
    | some acc2 => registerAllFrom acc2 rest

/-- Bring-up registration starting from the empty registry. -/
def registerAll {H : Type} (entries : List (RpcId × H)) :
    Option (List (CachedRpcHandler H)) :=
  registerAllFrom [] entries

/-- Outcome of dispatching one inbound Call message: which handler (if any)
was invoked, whether the argument payload was decoded, whether the drop was
logged, and whether the connection was terminated. -/
structure DispatchOutcome (H : Type) where
  invokedHandler : Option H
  decodedPayload : Bool
  logged : Bool
  connectionTerminated : Bool
deriving Repr

/-- Modelled from the spec: the body of `RpcService::HandleRpc` is not under
src/ (RpcService.h line 42 only declares it). Per spec sections 4.3 and 7, an inbound
Call is resolved against the handler registry; on failure the packet is
dropped without decoding the payload and without invoking any handler, the
event is logged, and the connection stays up; on success the payload is
decoded by the handler's thunk and the handler is invoked. -/
def HandleRpc {H : Type} (registry : List (CachedRpcHandler H))
    (callId : RpcId) : DispatchOutcome H :=
  match resolve registry callId with
  | none => ⟨none, false, true, false⟩
  | some h => ⟨some h, true, false, false⟩

end RpcService

/-- One minute of `std::chrono::steady_clock` time, in nanosecond ticks
(`std::chrono::minutes(1)` in ServerListSystem.cpp line 35). -/
def oneMinute : Nat := 60000000000

/-- The mutable state of ServerListSystem relevant to announcement timing:
`m_nextAnnounce`, a steady-clock time point modelled in nanosecond ticks. -/
structure ServerListState where
  nextAnnounce : Nat
deriving DecidableEq, Repr

namespace ServerListSystem

/-- The constructor's initialization `m_nextAnnounce{}` (ServerListSystem.cpp
line 16): value-initialized to the clock's epoch. -/
def init : ServerListState := ⟨0⟩

/-- ServerListSystem::Tick, from ServerListSystem.cpp lines 29-37: if
`m_nextAnnounce < now`, announce and set `m_nextAnnounce = now + minutes(1)`.
Returns the new state and whether an announcement was made. -/
def tick (s : ServerListState) (now : Nat) : ServerListState × Bool :=
  if s.nextAnnounce < now then (⟨now + oneMinute⟩, true) else (s, false)

/-- The PlayerComponent OnSet/OnRemove observer, from ServerListSystem.cpp
lines 20-23: `m_nextAnnounce = {}` resets the time point to the epoch. -/
def onPlayerChange (_s : ServerListState) : ServerListState := ⟨0⟩

end ServerListSystem

theorem rpcIdEq_iff (a b : RpcId) : rpcIdEq a b = true ↔ a = b := by
  cases a with
  | mk ka fa =>
    cases b with
    | mk kb fb =>
      simp [rpcIdEq, RpcId.mk.injEq, Bool.and_eq_true, beq_iff_eq]

/-- In a list whose designated keys are pairwise distinct, two members with
equal keys are the same member. -/
theorem eq_of_mem_pairwise_key {α β : Type _} {key : α → β} {l : List α}
    (hd : l.Pairwise (fun x y => key x ≠ key y)) {a b : α}
    (ha : a ∈ l) (hb : b ∈ l) (h : key a = key b) : a = b := by
  by_contra hne
  have hsymm : Symmetric (fun x y : α => key x ≠ key y) :=
    fun x y hxy h2 => hxy h2.symm
  exact List.Pairwise.forall hsymm hd ha hb hne h

/-- Lookup finds the WireId of any entry of a key-distinct table. -/
theorem lookupTable_eq_some {t : TranslationTable}
    (hd : List.Pairwise (fun a b => a.1 ≠ b.1) t) {id : RpcId} {w : Nat}
    (hmem : (id, w) ∈ t) : RpcService.lookupTable t id = some w := by
  unfold RpcService.lookupTable
  have hp : rpcIdEq (id, w).1 id = true := (rpcIdEq_iff _ _).mpr rfl
  cases hfind : List.find? (fun e => rpcIdEq e.1 id) t with
  | none =>
    rw [List.find?_eq_none] at hfind
    exact absurd hp (hfind _ hmem)
  | some e =>
    have he1 := List.find?_some hfind
    have hem : e ∈ t := List.mem_of_find?_eq_some hfind
    have hkey : e.1 = (id, w).1 := (rpcIdEq_iff _ _).mp he1
    have : e = (id, w) := eq_of_mem_pairwise_key hd hem hmem hkey
    simp [this]

/-- Lookup of an absent key returns none. -/
theorem lookupTable_eq_none {t : TranslationTable} {id : RpcId}
    (h : id ∉ t.map Prod.fst) : RpcService.lookupTable t id = none := by
  unfold RpcService.lookupTable
  have hfind : List.find? (fun e => rpcIdEq e.1 id) t = none := by
    rw [List.find?_eq_none]
    intro e he hpe
    exact h (List.mem_map.mpr ⟨e, he, (rpcIdEq_iff _ _).mp hpe⟩)
  rw [hfind]
  rfl

/-- Resolution over a key-distinct registry is unchanged by permutation. -/
theorem resolve_eq_of_perm {H : Type} {l1 l2 : List (CachedRpcHandler H)}
    (hperm : l1.Perm l2)
    (hd : l1.Pairwise (fun a b => a.Id ≠ b.Id)) (id : RpcId) :
    RpcService.resolve l1 id = RpcService.resolve l2 id := by
  unfold RpcService.resolve
  cases h1 : List.find? (fun c => rpcIdEq c.Id id) l1 with
  | none =>
    rw [List.find?_eq_none] at h1
    have h2 : List.find? (fun c => rpcIdEq c.Id id) l2 = none := by
      rw [List.find?_eq_none]
      intro c hc
      exact h1 c (hperm.mem_iff.mpr hc)
    rw [h2]
  | some c =>
    have hc1 : c ∈ l1 := List.mem_of_find?_eq_some h1
    have hc2 : c ∈ l2 := hperm.mem_iff.mp hc1
    have hpc := List.find?_some h1
    cases h2 : List.find? (fun c => rpcIdEq c.Id id) l2 with
    | none =>
      rw [List.find?_eq_none] at h2
      exact absurd hpc (h2 c hc2)
    | some c2 =>
      have hc21 : c2 ∈ l1 := hperm.mem_iff.mpr (List.mem_of_find?_eq_some h2)
      have hpc2 := List.find?_some h2
      have hkey : c.Id = c2.Id := by
        rw [(rpcIdEq_iff _ _).mp hpc, (rpcIdEq_iff _ _).mp hpc2]
      have : c = c2 := eq_of_mem_pairwise_key hd hc1 hc21 hkey
      rw [this]

/-- If a pending identity is already a key of the accumulated registry,
registration of the remaining entries fails. -/
theorem registerAllFrom_none_of_key_mem {H : Type}
    (entries : List (RpcId × H)) :
    ∀ (acc : List (CachedRpcHandler H)) (id : RpcId),
      id ∈ acc.map CachedRpcHandler.Id → id ∈ entries.map Prod.fst →
      RpcService.registerAllFrom acc entries = none := by
  induction entries with
  | nil =>
    intro acc id _ hent
    simp at hent
  | cons e rest ih =>
    intro acc id hacc hent
    rcases List.mem_map.mp hacc with ⟨c, hcmem, hcid⟩
    by_cases hany : acc.any (fun c => rpcIdEq c.Id e.1)
    · simp [RpcService.registerAllFrom, RpcService.registerHandler, hany]
    · have hne : id ∈ rest.map Prod.fst := by
        rcases List.mem_map.mp hent with ⟨e2, he2mem, he2fst⟩
        rcases List.mem_cons.mp he2mem with h | h
        · exfalso
          apply hany
          rw [List.any_eq_true]
          refine ⟨c, hcmem, ?_⟩
          rw [rpcIdEq_iff, hcid, ← he2fst, h]
        · exact List.mem_map.mpr ⟨e2, h, he2fst⟩
      have hstep :
          RpcService.registerAllFrom acc (e :: rest) =
            RpcService.registerAllFrom (acc ++ [⟨e.1, e.2⟩]) rest := by
        simp [RpcService.registerAllFrom, RpcService.registerHandler, hany]
      rw [hstep]
      have hacc2 : id ∈ (acc ++ [(⟨e.1, e.2⟩ : CachedRpcHandler H)]).map
          CachedRpcHandler.Id := by
        rw [List.map_append]
        exact List.mem_append.mpr (Or.inl (List.mem_map.mpr ⟨c, hcmem, hcid⟩))
      exact ih (acc ++ [⟨e.1, e.2⟩]) id hacc2 hne

/-- Registration of a list with a repeated identity fails, from any
accumulated registry. -/
theorem registerAllFrom_none_of_dup {H : Type} (entries : List (RpcId × H)) :
    ∀ acc, ¬ (entries.map Prod.fst).Nodup →
      RpcService.registerAllFrom acc entries = none := by
  induction entries with
  | nil =>
    intro acc h
    exact absurd List.nodup_nil h
  | cons e rest ih =>
    intro acc h
    by_cases hany : acc.any (fun c => rpcIdEq c.Id e.1)
    · simp [RpcService.registerAllFrom, RpcService.registerHandler, hany]
    · have hstep :
          RpcService.registerAllFrom acc (e :: rest) =
            RpcService.registerAllFrom (acc ++ [⟨e.1, e.2⟩]) rest := by
        simp [RpcService.registerAllFrom, RpcService.registerHandler, hany]
      rw [hstep]
      have hsplit : e.1 ∈ rest.map Prod.fst ∨ ¬ (rest.map Prod.fst).Nodup := by
        by_contra hcon
        push_neg at hcon
        exact h (List.nodup_cons.mpr ⟨hcon.1, hcon.2⟩)
      rcases hsplit with hmem | hnd
      · have hacc2 : e.1 ∈ (acc ++ [(⟨e.1, e.2⟩ : CachedRpcHandler H)]).map
            CachedRpcHandler.Id := by
          rw [List.map_append]
          exact List.mem_append.mpr (Or.inr (by simp))
        exact registerAllFrom_none_of_key_mem rest (acc ++ [⟨e.1, e.2⟩]) e.1
          hacc2 hmem
      · exact ih _ hnd

/-- XOR against a value below `2 ^ n` commutes with reduction modulo `2 ^ n`. -/
theorem xor_mod_two_pow_left {x y n : Nat} (hx : x < 2 ^ n) :
    x ^^^ (y % 2 ^ n) = (x ^^^ y) % 2 ^ n := by
  apply Nat.eq_of_testBit_eq
  intro i
  rw [Nat.testBit_xor, Nat.testBit_mod_two_pow, Nat.testBit_mod_two_pow,
    Nat.testBit_xor]
  by_cases hi : i < n
  · simp [hi]
  · have hxi : x.testBit i = false := by
      apply Nat.testBit_lt_two_pow
      calc x < 2 ^ n := hx
        _ ≤ 2 ^ i := Nat.pow_le_pow_right (by norm_num) (Nat.le_of_not_lt hi)
    simp [hi, hxi]

/-- Tick announces exactly when the stored time point lies strictly before
the current time. -/
theorem tick_announces_iff (s : ServerListState) (t : Nat) :
    (ServerListSystem.tick s t).2 = true ↔ s.nextAnnounce < t := by
  unfold ServerListSystem.tick
  by_cases h : s.nextAnnounce < t <;> simp [h]

/-- After an announcement, the next announcement is scheduled one minute
after the current time. -/
theorem tick_schedules (s : ServerListState) (t : Nat)
    (h : s.nextAnnounce < t) :
    (ServerListSystem.tick s t).1.nextAnnounce = t + oneMinute := by
  unfold ServerListSystem.tick
  simp [h]

/-- C3: RpcId equality holds iff both the Klass and the Function fields
match, and any pair differing in either field compares unequal. -/
theorem rpc_id_equality (a b : RpcId) :
    (rpcIdEq a b = true ↔ a.Klass = b.Klass ∧ a.Function = b.Function) ∧
    (a.Klass ≠ b.Klass ∨ a.Function ≠ b.Function → rpcIdEq a b = false) := by
  constructor
  · unfold rpcIdEq
    simp [Bool.and_eq_true, beq_iff_eq]
  · intro h
    cases hEq : rpcIdEq a b
    · rfl
    · exfalso
      have hab := (rpcIdEq_iff a b).mp hEq
      rcases h with h | h
      · exact h (congrArg RpcId.Klass hab)
      · exact h (congrArg RpcId.Function hab)

/-- C4: the hash of an Identity is a deterministic function of exactly its
two fields, computed as Klass xor (Function shifted left by one) on 64-bit
words: for a valid identity it equals `(Klass xor 2 * Function) mod 2 ^ 64`,
and identities agreeing on both fields hash identically. -/
theorem rpc_id_hash_deterministic (a b : RpcId) (hv : a.Valid) :
    rpcIdHash a = (a.Klass ^^^ (2 * a.Function)) % U64 ∧
    (a.Klass = b.Klass → a.Function = b.Function → rpcIdHash a = rpcIdHash b) := by
  constructor
  · unfold rpcIdHash
    rw [Nat.shiftLeft_eq, pow_one, Nat.mul_comm]
    exact xor_mod_two_pow_left hv.1
  · intro h1 h2
    unfold rpcIdHash
    rw [h1, h2]

/-- C8: for every Klass K and every 64-bit Function F, the identities
(K, F) and (K, (F + 2 ^ 63) mod 2 ^ 64) are distinct yet collide under
std::hash, because the left shift by one discards the top bit of Function. -/
theorem rpc_id_hash_high_bit_collision (K F : Nat) (hF : F < U64) :
    rpcIdHash ⟨K, (F + 2 ^ 63) % U64⟩ = rpcIdHash ⟨K, F⟩ ∧
    (⟨K, F⟩ : RpcId) ≠ ⟨K, (F + 2 ^ 63) % U64⟩ := by
  have h64 : U64 = 18446744073709551616 := by norm_num [U64]
  have h63 : (2 : Nat) ^ 63 = 9223372036854775808 := by norm_num
  constructor
  · unfold rpcIdHash
    rw [Nat.shiftLeft_eq, Nat.shiftLeft_eq, pow_one, h64, h63]
    have hinner : ((F + 9223372036854775808) % 18446744073709551616 * 2) %
        18446744073709551616 = F * 2 % 18446744073709551616 := by omega
    rw [hinner]
  · intro h
    have hf : F = (F + 2 ^ 63) % U64 := congrArg RpcId.Function h
    rw [h64, h63] at hf
    omega

/-- C9: the PacketEvent envelope stores the payload unchanged and adds only
the ConnectionId field, whose default is 0, so an envelope built without an
explicit connection identifier equals one built for connection 0. -/
theorem packet_event_envelope (T : Type) (t : T) :
    ({ payload := t } : PacketEvent T).payload = t ∧
    ({ payload := t } : PacketEvent T).ConnectionId = 0 ∧
    ({ payload := t } : PacketEvent T) =
      ({ payload := t, ConnectionId := 0 } : PacketEvent T) :=
  ⟨rfl, rfl, rfl⟩

/-- C1: processing a Definitions message rebuilds the translation table so
that lookup returns exactly the WireId paired with each listed Identity,
returns absent for every Identity not listed, and a second Definitions
message completely supersedes the first. -/
theorem rpc_definitions_replace_all (prev : TranslationTable)
    (entries : List (RpcId × Nat))
    (hd : List.Pairwise (fun a b => a.1 ≠ b.1) entries) :
    (∀ id w, (id, w) ∈ entries →
      RpcService.lookupTable (RpcService.HandleRpcDefinitions prev entries) id
        = some w) ∧
    (∀ id, id ∉ entries.map Prod.fst →
      RpcService.lookupTable (RpcService.HandleRpcDefinitions prev entries) id
        = none) ∧
    (∀ (first : List (RpcId × Nat)) (id : RpcId),
      RpcService.lookupTable
        (RpcService.HandleRpcDefinitions
          (RpcService.HandleRpcDefinitions prev first) entries) id =
      RpcService.lookupTable (RpcService.HandleRpcDefinitions prev entries) id) := by
  refine ⟨?_, ?_, ?_⟩
  · intro id w hmem
    exact lookupTable_eq_some hd hmem
  · intro id hid
    exact lookupTable_eq_none hid
  · intro first id
    rfl

/-- C2: an inbound Call whose identity does not resolve against the handler
registry is dropped: no handler is invoked, the argument payload is not
decoded, the event is logged, and the connection is not terminated. -/
theorem rpc_call_unresolved_dropped (H : Type)
    (registry : List (CachedRpcHandler H)) (callId : RpcId)
    (h : RpcService.resolve registry callId = none) :
    (RpcService.HandleRpc registry callId).invokedHandler = none ∧
    (RpcService.HandleRpc registry callId).decodedPayload = false ∧
    (RpcService.HandleRpc registry callId).logged = true ∧
    (RpcService.HandleRpc registry callId).connectionTerminated = false := by
  simp [RpcService.HandleRpc, h]

/-- C5: registering two entries with equal Identity during bring-up makes
initialization fail instead of silently keeping one of the handlers. -/
theorem register_duplicate_identity_fails (H : Type)
    (entries : List (RpcId × H))
    (h : ¬ (entries.map Prod.fst).Nodup) :
    RpcService.registerAll entries = none :=
  registerAllFrom_none_of_dup entries [] h

/-- C6: resolve returns the same handler for repeated calls with an equal
Identity, and for registries with pairwise distinct Identities the resolved
handler is independent of registration order. -/
theorem resolve_stable_order_independent (H : Type)
    (l l2 : List (CachedRpcHandler H)) (id id2 : RpcId) :
    (rpcIdEq id id2 = true →
      RpcService.resolve l id = RpcService.resolve l id2) ∧
    (l.Perm l2 → List.Pairwise (fun a b => a.Id ≠ b.Id) l →
      RpcService.resolve l id = RpcService.resolve l2 id) := by
  constructor
  · intro h
    rw [(rpcIdEq_iff id id2).mp h]
  · intro hperm hd
    exact resolve_eq_of_perm hperm hd id

/-- C7: for an Identity with no current server-assigned WireId, GetRpcId
returns an absent optional, and a lookup before the first Definitions
message (empty table) fails in exactly the same way. -/
theorem get_rpc_id_absent (t : TranslationTable) (k f : Nat)
    (h : (⟨k, f⟩ : RpcId) ∉ t.map Prod.fst) :
    RpcService.GetRpcId t k f = none ∧
    RpcService.GetRpcId RpcService.initialTable k f = none ∧
    RpcService.GetRpcId t k f =
      RpcService.GetRpcId RpcService.initialTable k f := by
  have h1 : RpcService.GetRpcId t k f = none := lookupTable_eq_none h
  exact ⟨h1, rfl, h1.trans rfl⟩

/-- C10: Tick announces exactly when the current time has passed the stored
next-announce time and then schedules the next announcement one minute
later, so two successive announcements are more than one minute apart; a
PlayerComponent set/remove resets the stored time to the epoch, making the
next Tick announce immediately (at any positive time). -/
theorem server_list_announce_timing (s : ServerListState) (t1 t2 : Nat) :
    ((ServerListSystem.tick s t1).2 = true ↔ s.nextAnnounce < t1) ∧
    (s.nextAnnounce < t1 →
      (ServerListSystem.tick s t1).1.nextAnnounce = t1 + oneMinute) ∧
    ((ServerListSystem.tick s t1).2 = true →
      (ServerListSystem.tick (ServerListSystem.tick s t1).1 t2).2 = true →
      t1 + oneMinute < t2) ∧
    ((ServerListSystem.tick (ServerListSystem.onPlayerChange s) t2).2 = true ↔
      0 < t2) := by
  refine ⟨tick_announces_iff s t1, tick_schedules s t1, ?_, ?_⟩
  · intro h1 h2
    have ha1 : s.nextAnnounce < t1 := (tick_announces_iff s t1).mp h1
    have ha2 := (tick_announces_iff (ServerListSystem.tick s t1).1 t2).mp h2
    rw [tick_schedules s t1 ha1] at ha2
    exact ha2
  · rw [tick_announces_iff]
    unfold ServerListSystem.onPlayerChange
    rfl

/-- Witness for C3 at the concrete identities (1,2) and (3,4). -/
theorem rpc_id_equality_witness :
    ((⟨1, 2⟩ : RpcId).Klass ≠ (⟨3, 4⟩ : RpcId).Klass ∨
      (⟨1, 2⟩ : RpcId).Function ≠ (⟨3, 4⟩ : RpcId).Function) ∧
    rpcIdEq ⟨1, 2⟩ ⟨3, 4⟩ = false :=
  ⟨by decide, (rpc_id_equality ⟨1, 2⟩ ⟨3, 4⟩).2 (by decide)⟩

/-- Witness for C4 at the concrete identity (1,2). -/
theorem rpc_id_hash_deterministic_witness :
    (⟨1, 2⟩ : RpcId).Valid ∧ rpcIdHash ⟨1, 2⟩ = (1 ^^^ (2 * 2)) % U64 :=
  ⟨⟨by decide, by decide⟩,
    (rpc_id_hash_deterministic ⟨1, 2⟩ ⟨1, 2⟩ ⟨by decide, by decide⟩).1⟩

/-- Witness for C8 at Klass 1, Function 2. -/
theorem rpc_id_hash_high_bit_collision_witness :
    (2 : Nat) < U64 ∧
    (rpcIdHash ⟨1, (2 + 2 ^ 63) % U64⟩ = rpcIdHash ⟨1, 2⟩ ∧
      (⟨1, 2⟩ : RpcId) ≠ ⟨1, (2 + 2 ^ 63) % U64⟩) :=
  ⟨by decide, rpc_id_hash_high_bit_collision 1 2 (by decide)⟩

/-- Witness for C1: the spec's concrete Definitions scenario, entry (1,2)->7. -/
theorem rpc_definitions_replace_all_witness :
    List.Pairwise (fun a b : RpcId × Nat => a.1 ≠ b.1)
      [(⟨1, 2⟩, 7), (⟨3, 4⟩, 9)] ∧
    RpcService.lookupTable
      (RpcService.HandleRpcDefinitions RpcService.initialTable
        [(⟨1, 2⟩, 7), (⟨3, 4⟩, 9)]) ⟨1, 2⟩ = some 7 :=
  ⟨by decide,
    (rpc_definitions_replace_all RpcService.initialTable
      [(⟨1, 2⟩, 7), (⟨3, 4⟩, 9)] (by decide)).1 ⟨1, 2⟩ 7 (by decide)⟩

/-- Witness for C2: an unresolvable call against the empty registry. -/
theorem rpc_call_unresolved_dropped_witness :
    RpcService.resolve ([] : List (CachedRpcHandler Nat)) ⟨9, 9⟩ = none ∧
    ((RpcService.HandleRpc ([] : List (CachedRpcHandler Nat))
        ⟨9, 9⟩).invokedHandler = none ∧
      (RpcService.HandleRpc ([] : List (CachedRpcHandler Nat))
        ⟨9, 9⟩).decodedPayload = false ∧
      (RpcService.HandleRpc ([] : List (CachedRpcHandler Nat))
        ⟨9, 9⟩).logged = true ∧
      (RpcService.HandleRpc ([] : List (CachedRpcHandler Nat))
        ⟨9, 9⟩).connectionTerminated = false) :=
  ⟨rfl, rpc_call_unresolved_dropped Nat [] ⟨9, 9⟩ rfl⟩

/-- Witness for C5: a bring-up list repeating the identity (1,2). -/
theorem register_duplicate_identity_fails_witness :
    ¬ (([(⟨1, 2⟩, 5), (⟨1, 2⟩, 6)] : List (RpcId × Nat)).map Prod.fst).Nodup ∧
    RpcService.registerAll
      ([(⟨1, 2⟩, 5), (⟨1, 2⟩, 6)] : List (RpcId × Nat)) = none :=
  ⟨by decide,
    register_duplicate_identity_fails Nat [(⟨1, 2⟩, 5), (⟨1, 2⟩, 6)]
      (by decide)⟩

/-- Witness for C6: a two-entry registry and its reversal. -/
theorem resolve_stable_order_independent_witness :
    ([⟨⟨1, 2⟩, 10⟩, ⟨⟨3, 4⟩, 20⟩] : List (CachedRpcHandler Nat)).Perm
      [⟨⟨3, 4⟩, 20⟩, ⟨⟨1, 2⟩, 10⟩] ∧
    List.Pairwise (fun a b : CachedRpcHandler Nat => a.Id ≠ b.Id)
      [⟨⟨1, 2⟩, 10⟩, ⟨⟨3, 4⟩, 20⟩] ∧
    RpcService.resolve
        ([⟨⟨1, 2⟩, 10⟩, ⟨⟨3, 4⟩, 20⟩] : List (CachedRpcHandler Nat)) ⟨1, 2⟩ =
      RpcService.resolve
        ([⟨⟨3, 4⟩, 20⟩, ⟨⟨1, 2⟩, 10⟩] : List (CachedRpcHandler Nat)) ⟨1, 2⟩ :=
  ⟨by decide, by decide,
    (resolve_stable_order_independent Nat
      [⟨⟨1, 2⟩, 10⟩, ⟨⟨3, 4⟩, 20⟩] [⟨⟨3, 4⟩, 20⟩, ⟨⟨1, 2⟩, 10⟩]
      ⟨1, 2⟩ ⟨1, 2⟩).2 (by decide) (by decide)⟩

/-- Witness for C7: identity (5,6) absent from a one-entry table. -/
theorem get_rpc_id_absent_witness :
    ((⟨5, 6⟩ : RpcId) ∉ ([(⟨1, 2⟩, 7)] : TranslationTable).map Prod.fst) ∧
    RpcService.GetRpcId ([(⟨1, 2⟩, 7)] : TranslationTable) 5 6 = none :=
  ⟨by decide, (get_rpc_id_absent [(⟨1, 2⟩, 7)] 5 6 (by decide)).1⟩

/-- Witness for C10: an announcement at time 1 followed by one at
oneMinute + 2, which is more than one minute later. -/
theorem server_list_announce_timing_witness :
    (ServerListSystem.tick ⟨0⟩ 1).2 = true ∧
    (ServerListSystem.tick (ServerListSystem.tick ⟨0⟩ 1).1
      (oneMinute + 2)).2 = true ∧
    1 + oneMinute < oneMinute + 2 :=
  ⟨by decide, by decide,
    (server_list_announce_timing ⟨0⟩ 1 (oneMinute + 2)).2.2.1
      (by decide) (by decide)⟩

end CyberpunkMP
